import Mathlib

/-!
# das-controller: the configuration header and the controller it configures

`config.example.h` is the configuration of an Arduino output controller: the
enabled components, the device name, the MAC address computed from the name,
the status pins, the HTTP command names and the table of outputs.

The first part embeds the header.  A C string literal is the array of the
bytes of its text (UTF-8, one `char` each) followed by a terminating NUL, so
reading `name[i]` is modelled by `charAt`, which yields a byte of the text
below the array's last index, the NUL at it and nothing beyond the array.
`(byte)c` is the value of `c` modulo 256.

The second part models the controller's `execute`, which is not part of the
header, from the written specification.
-/

set_option autoImplicit false

namespace DasController

/-! ## Components -/

def enableInput : Bool := false
def enableHttp : Bool := true
def enableMqtt : Bool := false
def enableTelnet : Bool := false
def enableStatus : Bool := true
def enableRgbStatus : Bool := false

/-! ## General options -/

/-- The device name, `const char* name = "das01"; // At least 4 characters`. -/
def name : String := "das01"

/-- The minimum length of the device name that the header documents. -/
def documentedMinNameLength : Nat := 4

/-- The `char`s of a C string literal before its terminator: the bytes of its
text in UTF-8, one array element each (an ASCII character is one byte, its
code). -/
def literalBytes (s : String) : List Nat := s.toUTF8.data.toList.map UInt8.toNat

/-- The array a C string literal denotes: its bytes and the terminating NUL. -/
def cArray (s : String) : List Nat := literalBytes s ++ [0]

/-- Reading `s[i]` from the string literal `s`: `none` past the array. -/
def charAt (s : String) (i : Nat) : Option Nat := (cArray s)[i]?

/-- The cast `(byte)c`. -/
def toByte (c : Nat) : Nat := c % 256

/-- The indices of the name that the initialiser of `mac` reads, in order. -/
def macNameIndices : List Nat := [0, 1, 2, 4]

/-- The initialiser
`{ 0x00, 0xAA, (byte)name[0], (byte)name[1], (byte)name[2], (byte)name[4] }`
for a device name `nm`; `none` when a read falls outside the array of `nm`. -/
def macOf (nm : String) : Option (List Nat) := do
  let c0 ← charAt nm 0
  let c1 ← charAt nm 1
  let c2 ← charAt nm 2
  let c4 ← charAt nm 4
  pure [0x00, 0xAA, toByte c0, toByte c1, toByte c2, toByte c4]

/-- The configured `byte mac[]`. -/
def mac : Option (List Nat) := macOf name

/-! ## Status LED -/

def statusFalloffDelay : Nat := 500

def statusPins : List Nat := [2, 3, 4, 5, 6]

/-- The number of status pins a status mode drives: the 3 pins of the RGB led
or the 5 LEDs of the front case (comment of `statusPins`). -/
def statusPinCount (rgb : Bool) : Nat := if rgb then 3 else 5

/-! ## Network -/

def useDhcp : Bool := false
def ip : List Nat := [192, 168, 1, 111]

/-! ## HTTP -/

def onCommand : String := "on"
def offCommand : String := "off"
def toggleCommand : String := "toggle"
def pulseCommand : String := "pulse"
def lockCommand : String := "lock"
def unlockCommand : String := "unlock"
def statusCommand : String := "status"

/-! ## MQTT -/

def mqttServer : List Nat := [192, 168, 1, 1]
def mqttPort : Nat := 1883
def mqttReconnectinterval : Int := 30000

/-! ## Telnet -/

def telnetServer : List Nat := [192, 168, 1, 100]
def telnetPort : Nat := 23
def telnetUsername : String := "root"
def telnetPassword : String := "1234"
def telnetCommand : String := "show -d properties /admin1/system1"
def telnetInterval : Int := 15000
def telnetTimeout : Int := 120000
def telnetReconnectInterval : Int := 30000
def telnetResponseDelay : Nat := 2000

/-! ## Outputs -/

def toggleDelay : Nat := 100

/-- The two pin levels of the Arduino core. -/
inductive PinLevel where
  | LOW
  | HIGH
  deriving DecidableEq, Repr

/-- Modelled from the spec: the declaration of `struct Output` is not part of the
header.  The fields are those the initialiser of `outputs` fills, in its
order, named as in the specification's data model (`url`, `topic` and
`reportTopic` after the initialiser's comments). -/
structure Output where
  name : String
  url : String
  topic : String
  reportTopic : String
  pulseDuration : Int
  outputPin : Nat
  outputEnabled : Bool
  activeLow : Bool
  inputPin : Nat
  inputActiveLow : Bool
  inputMode : Nat
  startupState : PinLevel
  canTurnOn : Bool
  canTurnOff : Bool
  canToggle : Bool
  canPulse : Bool
  canLock : Bool
  canReadStatus : Bool
  reportsEnabled : Bool
  deriving DecidableEq, Repr

/-- The configured table `Output outputs[]`. -/
def outputs : List Output :=
  [ { name := "drives"
      url := "/drives"
      topic := "das01/drives/control"
      reportTopic := "das01/drives/report"
      pulseDuration := -1
      outputPin := 8
      outputEnabled := true
      activeLow := true
      inputPin := 0
      inputActiveLow := false
      inputMode := 0
      startupState := PinLevel.LOW
      canTurnOn := true
      canTurnOff := true
      canToggle := false
      canPulse := false
      canLock := true
      canReadStatus := true
      reportsEnabled := true } ]

/-! ## The controller

The header configures a controller whose code is not part of it.  What follows
is that controller's `execute` as the specification describes it (sections
3 and 4.1): the live state of an output, the command set, the error kinds and
the order of the checks.  Times are milliseconds of a monotonic clock. -/

/-- Modelled from the spec: the commands `execute` accepts,
`on, off, toggle, pulse(duration?), lock, unlock, status`; the controller's
code is missing from the sources. -/
inductive Command where
  | on
  | off
  | toggle
  | pulse (duration : Option Int)
  | lock
  | unlock
  | status
  deriving DecidableEq, Repr

/-- Modelled from the spec: the error kinds `execute` returns (the controller's
code is missing from the sources). -/
inductive Error where
  | NotFound
  | Forbidden
  | Locked
  | Busy
  | InvalidArgument
  deriving DecidableEq, Repr

/-- Modelled from the spec: the live state of an Output, `currentLevel`
(logical on is `true`), `locked`, `pulseDeadline` and `lastChangeTime`, with the
level to revert to when a pulse ends and the end of the debounce window of the
last accepted toggle; the controller's code is missing from the sources. -/
structure LiveState where
  currentLevel : Bool
  locked : Bool
  pulseDeadline : Option Nat
  lastChangeTime : Nat
  prePulseLevel : Bool
  toggleHoldUntil : Option Nat
  deriving DecidableEq, Repr

/-- Modelled from the spec: an Output owned by the controller, its static
configuration and its live state (the controller's code is missing from the
sources). -/
structure Slot where
  cfg : Output
  live : LiveState
  deriving DecidableEq, Repr

/-- Modelled from the spec: the controller, the configured toggle delay and
the Outputs it owns in table order (its code is missing from the sources). -/
structure Controller where
  toggleDelay : Nat
  slots : List Slot
  deriving DecidableEq, Repr

/-- Modelled from the spec: what a successful command does outside the state,
a write of the physical line and a report to the notification sinks (the
controller's code is missing from the sources). -/
inductive Effect where
  | pinWrite (pin : Nat) (level : PinLevel)
  | report (outputName : String) (level : Bool)
  deriving DecidableEq, Repr

/-- Modelled from the spec: the result of `execute`, the new state or an error
kind (the controller's code is missing from the sources). -/
inductive Result where
  | ok (state : LiveState)
  | error (kind : Error)
  deriving DecidableEq, Repr

/-- Modelled from the spec: what one call of `execute` yields, its result, the
controller afterwards and the side effects (the controller's code is missing
from the sources). -/
structure Outcome where
  result : Result
  controller : Controller
  effects : List Effect
  deriving DecidableEq, Repr

/-- Modelled from the spec: the permission flag that gates a command's
category; `lock` and `unlock` are the one category `canLock` gates, `status`
needs `canReadStatus` (the controller's code is missing from the sources). -/
def permissionFlag (o : Output) : Command → Bool
  | Command.on => o.canTurnOn
  | Command.off => o.canTurnOff
  | Command.toggle => o.canToggle
  | Command.pulse _ => o.canPulse
  | Command.lock => o.canLock
  | Command.unlock => o.canLock
  | Command.status => o.canReadStatus

/-- Modelled from the spec: the commands a locked Output still accepts,
`unlock` and `status` (the controller's code is missing from the sources). -/
def passesLock : Command → Bool
  | Command.unlock => true
  | Command.status => true
  | _ => false

/-- Modelled from the spec: the state of an Output at initialisation,
`currentLevel` is `startupState`, nothing locked or pending (the controller's
code is missing from the sources). -/
def LiveState.initial (o : Output) : LiveState :=
  { currentLevel := decide (o.startupState = PinLevel.HIGH)
    locked := false
    pulseDeadline := none
    lastChangeTime := 0
    prePulseLevel := decide (o.startupState = PinLevel.HIGH)
    toggleHoldUntil := none }

/-- Modelled from the spec: the controller constructed from the static
configuration (its code is missing from the sources). -/
def Controller.init (delay : Nat) (table : List Output) : Controller :=
  { toggleDelay := delay
    slots := table.map fun o => { cfg := o, live := LiveState.initial o } }

/-- Modelled from the spec: the physical level of a logical level, inverted
when the Output is active low (the controller's code is missing from the
sources). -/
def physicalLevel (o : Output) (level : Bool) : PinLevel :=
  if level = o.activeLow then PinLevel.LOW else PinLevel.HIGH

/-- Modelled from the spec: the side effects of a successful state-changing
command, the pin write if `outputEnabled` and the report if `reportsEnabled`
(the controller's code is missing from the sources). -/
def effectsOf (o : Output) (level : Bool) : List Effect :=
  (if o.outputEnabled then [Effect.pinWrite o.outputPin (physicalLevel o level)] else []) ++
  (if o.reportsEnabled then [Effect.report o.name level] else [])

/-- Modelled from the spec: the per-command semantics of section 4.1 on an
Output that passed the permission and lock checks (the controller's code is
missing from the sources). -/
def applyCommand (delay : Nat) (o : Output) (s : LiveState) (now : Nat) :
    Command → Except Error LiveState
  | Command.on =>
      pure { s with currentLevel := true, pulseDeadline := none, lastChangeTime := now }
  | Command.off =>
      pure { s with currentLevel := false, pulseDeadline := none, lastChangeTime := now }
  | Command.toggle =>
      match s.toggleHoldUntil with
      | some t =>
          if now < t then throw Error.Busy
          else pure { s with currentLevel := !s.currentLevel, pulseDeadline := none,
                             lastChangeTime := now, toggleHoldUntil := some (now + delay) }
      | none =>
          pure { s with currentLevel := !s.currentLevel, pulseDeadline := none,
                        lastChangeTime := now, toggleHoldUntil := some (now + delay) }
  | Command.pulse duration =>
      let d := duration.getD o.pulseDuration
      if d < 0 then throw Error.InvalidArgument
      else pure { s with currentLevel := true,
                         prePulseLevel :=
                           if s.pulseDeadline.isSome then s.prePulseLevel else s.currentLevel,
                         pulseDeadline := some (now + d.toNat), lastChangeTime := now }
  | Command.lock => pure { s with locked := true, lastChangeTime := now }
  | Command.unlock => pure { s with locked := false, lastChangeTime := now }
  | Command.status => pure s

/-- Modelled from the spec: `execute` on the Output the name resolved to.  The
preconditions are checked in the order section 4.1 lists them: the permission
flag of the command's category (`Forbidden`), then the lock (`Locked`), then
the command's own conditions (the controller's code is missing from the
sources). -/
def executeSlot (delay : Nat) (sl : Slot) (cmd : Command) (now : Nat) :
    Except Error LiveState :=
  if permissionFlag sl.cfg cmd = false then throw Error.Forbidden
  else if sl.live.locked = true ∧ passesLock cmd = false then throw Error.Locked
  else applyCommand delay sl.cfg sl.live now cmd

/-- Modelled from the spec: the walk of `execute` over the table, which
resolves the name to the first Output that bears it (the controller's code is
missing from the sources). -/
def executeIn (delay : Nat) (outputName : String) (cmd : Command) (now : Nat) :
    List Slot → Result × List Slot × List Effect
  | [] => (Result.error Error.NotFound, [], [])
  | sl :: rest =>
      if sl.cfg.name = outputName then
        match executeSlot delay sl cmd now with
        | Except.error e => (Result.error e, sl :: rest, [])
        | Except.ok s =>
            (Result.ok s, { sl with live := s } :: rest,
              if cmd = Command.status then [] else effectsOf sl.cfg s.currentLevel)
      else
        let r := executeIn delay outputName cmd now rest
        (r.1, sl :: r.2.1, r.2.2)

/-- Modelled from the spec: `execute(outputName, command, args?)` at time `now`
(the controller's code is missing from the sources). -/
def execute (c : Controller) (outputName : String) (cmd : Command) (now : Nat) : Outcome :=
  let r := executeIn c.toggleDelay outputName cmd now c.slots
  { result := r.1, controller := { c with slots := r.2.1 }, effects := r.2.2 }

/-- Modelled from the spec: the Output a name resolves to (the controller's
code is missing from the sources). -/
def Controller.lookup (c : Controller) (outputName : String) : Option Slot :=
  c.slots.find? fun sl => sl.cfg.name = outputName

/-- The controller of the configured table. -/
def controller : Controller := Controller.init toggleDelay outputs

/-! ## Lemmas on the walk over the table -/

theorem executeIn_rejected (delay : Nat) (n : String) (cmd : Command) (now : Nat) (e : Error) :
    ∀ (slots : List Slot) (sl : Slot),
      slots.find? (fun x => x.cfg.name = n) = some sl →
      executeSlot delay sl cmd now = Except.error e →
      executeIn delay n cmd now slots = (Result.error e, slots, []) := by
  intro slots
  induction slots with
  | nil => intro sl h; simp at h
  | cons x rest ih =>
    intro sl h he
    by_cases hx : x.cfg.name = n
    · have hsl : x = sl := by simpa [List.find?, hx] using h
      subst hsl
      simp [executeIn, hx, he]
    · have hrest : rest.find? (fun y => y.cfg.name = n) = some sl := by
        simpa [List.find?, hx] using h
      simp [executeIn, hx, ih sl hrest he]

theorem executeSlot_forbidden (delay : Nat) (sl : Slot) (cmd : Command) (now : Nat)
    (h : permissionFlag sl.cfg cmd = false) :
    executeSlot delay sl cmd now = Except.error Error.Forbidden := by
  simp [executeSlot, h, throw, throwThe, MonadExceptOf.throw]

theorem execute_rejected (c : Controller) (n : String) (cmd : Command) (now : Nat)
    (sl : Slot) (e : Error) (hfind : c.lookup n = some sl)
    (he : executeSlot c.toggleDelay sl cmd now = Except.error e) :
    execute c n cmd now = { result := Result.error e, controller := c, effects := [] } := by
  unfold Controller.lookup at hfind
  simp [execute, executeIn_rejected c.toggleDelay n cmd now e c.slots sl hfind he]

theorem configured_slots (c : Controller) (h : c.slots.map Slot.cfg = outputs) :
    ∃ sl : Slot, c.slots = [sl] ∧ [sl.cfg] = outputs := by
  obtain ⟨delay, slots⟩ := c
  cases slots with
  | nil => simp [outputs] at h
  | cons sl rest =>
    cases rest with
    | nil => exact ⟨sl, rfl, by simpa using h⟩
    | cons x more => simp [outputs] at h

/-! ## Permissions -/

/-- C1: for every Output of the configured table, in any live state, a command
whose permission flag on that Output is false makes `execute` return
`Forbidden` with the controller (so `currentLevel`) unchanged and no side
effect.  For the configured "drives" (`canTurnOn`, `canTurnOff` true, `canPulse`
false), `pulse` returns `Forbidden`, and `on` on the unlocked output succeeds
with level on, in the result and in the controller afterwards. -/
theorem execute_forbidden_when_flag_false :
    (∀ (c : Controller) (o : Output) (cmd : Command) (now : Nat),
      c.slots.map Slot.cfg = outputs → o ∈ outputs → permissionFlag o cmd = false →
      execute c o.name cmd now =
        { result := Result.error Error.Forbidden, controller := c, effects := [] }) ∧
    (∀ (c : Controller) (d : Option Int) (now : Nat),
      c.slots.map Slot.cfg = outputs →
      execute c "drives" (Command.pulse d) now =
        { result := Result.error Error.Forbidden, controller := c, effects := [] }) ∧
    (∀ (c : Controller) (now : Nat),
      c.slots.map Slot.cfg = outputs → (∀ sl ∈ c.slots, sl.live.locked = false) →
      ∃ s : LiveState, (execute c "drives" Command.on now).result = Result.ok s ∧
        s.currentLevel = true ∧
        ((execute c "drives" Command.on now).controller.lookup "drives").map
          (fun sl => sl.live.currentLevel) = some true) ∧
    (∀ now : Nat, ∃ s : LiveState,
      (execute controller "drives" Command.on now).result = Result.ok s ∧
        s.currentLevel = true) := by
  have forbidden : ∀ (c : Controller) (o : Output) (cmd : Command) (now : Nat),
      c.slots.map Slot.cfg = outputs → o ∈ outputs → permissionFlag o cmd = false →
      execute c o.name cmd now =
        { result := Result.error Error.Forbidden, controller := c, effects := [] } := by
    intro c o cmd now hc ho hp
    obtain ⟨sl, hsl, hcfg⟩ := configured_slots c hc
    have hoc : o = sl.cfg := by
      rw [← hcfg] at ho
      simpa using ho
    have hfind : c.lookup o.name = some sl := by
      simp [Controller.lookup, hsl, hoc, List.find?]
    exact execute_rejected c o.name cmd now sl Error.Forbidden hfind
      (executeSlot_forbidden _ sl cmd now (hoc ▸ hp))
  have unlockedOn : ∀ (c : Controller) (now : Nat),
      c.slots.map Slot.cfg = outputs → (∀ sl ∈ c.slots, sl.live.locked = false) →
      ∃ s : LiveState, (execute c "drives" Command.on now).result = Result.ok s ∧
        s.currentLevel = true ∧
        ((execute c "drives" Command.on now).controller.lookup "drives").map
          (fun sl => sl.live.currentLevel) = some true := by
    intro c now hc hl
    obtain ⟨sl, hsl, hcfg⟩ := configured_slots c hc
    have hlk : sl.live.locked = false := hl sl (by simp [hsl])
    have hcfg1 : sl.cfg = outputs.head (by decide) := by
      simp [← hcfg]
    have hname : sl.cfg.name = "drives" := by rw [hcfg1]; decide
    have hon : sl.cfg.canTurnOn = true := by rw [hcfg1]; decide
    refine ⟨{ sl.live with currentLevel := true, pulseDeadline := none,
                           lastChangeTime := now }, ?_, rfl, ?_⟩
    · simp [execute, hsl, executeIn, hname, executeSlot, permissionFlag, hon, hlk,
        applyCommand, pure, Except.pure]
    · simp [execute, hsl, executeIn, hname, executeSlot, permissionFlag, hon, hlk,
        applyCommand, pure, Except.pure, Controller.lookup, List.find?]
  refine ⟨forbidden, ?_, unlockedOn, ?_⟩
  · intro c d now hc
    exact forbidden c (outputs.head (by decide)) (Command.pulse d) now hc (by decide) rfl
  · intro now
    obtain ⟨s, h1, h2, _⟩ := unlockedOn controller now (by decide) (by decide)
    exact ⟨s, h1, h2⟩

/-- C1 at the configured controller in its initial state: `toggle`, whose flag
`canToggle` is false on "drives", is rejected and nothing changes. -/
theorem execute_forbidden_when_flag_false_witness :
    controller.slots.map Slot.cfg = outputs ∧
    permissionFlag (outputs.head (by decide)) Command.toggle = false ∧
    execute controller "drives" Command.toggle 7 =
      { result := Result.error Error.Forbidden, controller := controller, effects := [] } :=
  ⟨by decide, by decide,
    execute_forbidden_when_flag_false.1 controller (outputs.head (by decide)) Command.toggle 7
      (by decide) (by decide) (by decide)⟩

/-! ## The MAC address -/

theorem literalBytes_eq (nm : String) :
    literalBytes nm = (nm.toList.flatMap String.utf8EncodeChar).map UInt8.toNat := rfl

theorem literalBytes_lt (nm : String) (b : Nat) (hb : b ∈ literalBytes nm) : b < 256 := by
  simp only [literalBytes, List.mem_map] at hb
  obtain ⟨x, _, rfl⟩ := hb
  have := UInt8.toNat_lt x
  omega

theorem length_le_flatMap_utf8 (cs : List Char) :
    cs.length ≤ (cs.flatMap String.utf8EncodeChar).length := by
  induction cs with
  | nil => simp
  | cons c rest ih =>
    have hc := Char.utf8Size_pos c
    simp only [List.flatMap_cons, List.length_append, List.length_cons,
      String.length_utf8EncodeChar]
    omega

theorem length_le_literalBytes (nm : String) : nm.length ≤ (literalBytes nm).length := by
  rw [literalBytes_eq, List.length_map]
  exact length_le_flatMap_utf8 nm.toList

theorem five_bytes (l : List Nat) (h : 5 ≤ l.length) :
    ∃ b0 b1 b2 b3 b4 rest, l = b0 :: b1 :: b2 :: b3 :: b4 :: rest := by
  match l, h with
  | b0 :: b1 :: b2 :: b3 :: b4 :: rest, _ => exact ⟨b0, b1, b2, b3, b4, rest, rfl⟩

theorem macOf_of_bytes (nm : String) (b0 b1 b2 b3 b4 : Nat) (rest : List Nat)
    (h : literalBytes nm = b0 :: b1 :: b2 :: b3 :: b4 :: rest) :
    macOf nm = some [0x00, 0xAA, b0, b1, b2, b4] := by
  have h0 : b0 % 256 = b0 := Nat.mod_eq_of_lt (literalBytes_lt nm b0 (by simp [h]))
  have h1 : b1 % 256 = b1 := Nat.mod_eq_of_lt (literalBytes_lt nm b1 (by simp [h]))
  have h2 : b2 % 256 = b2 := Nat.mod_eq_of_lt (literalBytes_lt nm b2 (by simp [h]))
  have h4 : b4 % 256 = b4 := Nat.mod_eq_of_lt (literalBytes_lt nm b4 (by simp [h]))
  simp [macOf, charAt, cArray, h, toByte, h0, h1, h2, h4]

theorem macOf_reads_macNameIndices (nm : String) :
    macOf nm = (macNameIndices.mapM (charAt nm)).map
      (fun cs => 0x00 :: 0xAA :: cs.map toByte) := by
  simp only [macOf, macNameIndices, List.mapM_cons, List.mapM_nil]
  cases charAt nm 0 <;> cases charAt nm 1 <;> cases charAt nm 2 <;> cases charAt nm 4 <;> rfl

/-- C3 (the header against its own comment): the comment of `name` documents a
minimum of 4 characters, and the name "das1" has 4; yet index 4, which the
initialiser of `mac` reads, is not the index of one of its characters: the read
yields the terminating NUL and the last MAC byte is 0x00, not a character of
the name.  So "every index read is the index of a character" fails for names
of the documented minimum length. -/
theorem mac_index_four_past_four_char_name :
    documentedMinNameLength ≤ "das1".length ∧
    4 ∈ macNameIndices ∧
    ¬ 4 < "das1".length ∧
    charAt "das1" 4 = some 0 ∧
    macOf "das1" = some [0x00, 0xAA, 0x64, 0x61, 0x73, 0x00] ∧
    ¬ (∀ nm : String, documentedMinNameLength ≤ nm.length →
        ∀ i ∈ macNameIndices, i < nm.length) := by
  refine ⟨by decide, by decide, by decide, by decide, by decide, ?_⟩
  intro h
  exact absurd (h "das1" (by decide) 4 (by decide)) (by decide)

/-- C4: the MAC address is the six bytes 0x00, 0xAA, name[0], name[1], name[2],
name[4] in that order.  For every name whose literal starts with the bytes
b0 b1 b2 b3 b4 the address is 00:AA:b0:b1:b2:b4, whatever b3 (index 3) is; the
indices `macOf` reads are 0, 1, 2 and then 4, and 3 is not among them; for the
configured name "das01" the address is 00:AA:64:61:73:31. -/
theorem mac_is_fixed_bytes_then_name_bytes :
    (∀ (nm : String) (b0 b1 b2 b3 b4 : Nat) (rest : List Nat),
      literalBytes nm = b0 :: b1 :: b2 :: b3 :: b4 :: rest →
      macOf nm = some [0x00, 0xAA, b0, b1, b2, b4]) ∧
    (∀ nm : String, macOf nm = (macNameIndices.mapM (charAt nm)).map
      (fun cs => 0x00 :: 0xAA :: cs.map toByte)) ∧
    macNameIndices = [0, 1, 2, 4] ∧ 3 ∉ macNameIndices ∧
    name = "das01" ∧ literalBytes name = [0x64, 0x61, 0x73, 0x30, 0x31] ∧
    mac = some [0x00, 0xAA, 0x64, 0x61, 0x73, 0x31] :=
  ⟨macOf_of_bytes, macOf_reads_macNameIndices, by decide, by decide, by decide, by decide,
    by decide⟩

/-- C4 at a name with a two-byte character: the literal "dés01" is the bytes
64 C3 A9 73 30 31, and the address takes 64, C3, A9 and 30 (index 4), not 73
(index 3). -/
theorem mac_is_fixed_bytes_then_name_bytes_witness :
    literalBytes "dés01" = [0x64, 0xC3, 0xA9, 0x73, 0x30, 0x31] ∧
    macOf "dés01" = some [0x00, 0xAA, 0x64, 0xC3, 0xA9, 0x30] :=
  ⟨by decide,
    mac_is_fixed_bytes_then_name_bytes.1 "dés01" 0x64 0xC3 0xA9 0x73 0x30 [0x31] (by decide)⟩

/-- C8: the MAC depends only on the name's `char`s (the bytes of its literal) at
indices 0, 1, 2 and 4.  Two names of at least 5 bytes with the same bytes at
those indices have the same MAC, which is 00:AA followed by those four bytes;
a name of at least 5 characters has at least 5 bytes.  "das01" and "das11"
differ (at index 3 only) and share a MAC, and so do "das01" and "das01x", which
differ beyond index 4. -/
theorem mac_depends_only_on_sampled_indices :
    (∀ a b : String, 5 ≤ (literalBytes a).length → 5 ≤ (literalBytes b).length →
      (∀ i ∈ macNameIndices, (literalBytes a)[i]? = (literalBytes b)[i]?) →
      macOf a = macOf b ∧
      macOf a = some [0x00, 0xAA, (literalBytes a).getD 0 0, (literalBytes a).getD 1 0,
        (literalBytes a).getD 2 0, (literalBytes a).getD 4 0]) ∧
    (∀ nm : String, nm.length ≤ (literalBytes nm).length) ∧
    ("das01" ≠ "das11" ∧ macOf "das01" = macOf "das11" ∧
      macOf "das11" = some [0x00, 0xAA, 0x64, 0x61, 0x73, 0x31]) ∧
    ("das01" ≠ "das01x" ∧ macOf "das01" = macOf "das01x" ∧
      macOf "das01x" = some [0x00, 0xAA, 0x64, 0x61, 0x73, 0x31]) := by
  refine ⟨?_, length_le_literalBytes, by decide, by decide⟩
  intro a b ha hb h
  obtain ⟨a0, a1, a2, a3, a4, ra, hla⟩ := five_bytes _ ha
  obtain ⟨c0, c1, c2, c3, c4, rb, hlb⟩ := five_bytes _ hb
  have e0 : a0 = c0 := by simpa [hla, hlb] using h 0 (by decide)
  have e1 : a1 = c1 := by simpa [hla, hlb] using h 1 (by decide)
  have e2 : a2 = c2 := by simpa [hla, hlb] using h 2 (by decide)
  have e4 : a4 = c4 := by simpa [hla, hlb] using h 4 (by decide)
  have hma := macOf_of_bytes a a0 a1 a2 a3 a4 ra hla
  have hmb := macOf_of_bytes b c0 c1 c2 c3 c4 rb hlb
  refine ⟨?_, ?_⟩
  · rw [hma, hmb, e0, e1, e2, e4]
  · rw [hma, hla]
    rfl

/-- C8 at the configured name and a name differing from it at index 3. -/
theorem mac_depends_only_on_sampled_indices_witness :
    5 ≤ (literalBytes "das01").length ∧ 5 ≤ (literalBytes "das11").length ∧
    (∀ i ∈ macNameIndices, (literalBytes "das01")[i]? = (literalBytes "das11")[i]?) ∧
    macOf "das01" = macOf "das11" :=
  ⟨by decide, by decide, by decide,
    (mac_depends_only_on_sampled_indices.1 "das01" "das11" (by decide) (by decide)
      (by decide)).1⟩

/-! ## The configured tables -/

/-- C5: in the configured table every Output's name is non-empty and the names
are pairwise distinct (no name occurs at two positions). -/
theorem outputs_names_nonempty_and_unique :
    (∀ o ∈ outputs, o.name ≠ "") ∧
    (outputs.map Output.name).Nodup ∧
    (∀ (i j : Fin outputs.length), (outputs.get i).name = (outputs.get j).name → i = j) := by
  decide

/-- C6: the URL of every Output of the configured table is "/" followed by its
name; for "drives" it is "/drives". -/
theorem outputs_url_is_slash_name :
    (∀ o ∈ outputs, o.url = "/" ++ o.name) ∧
    outputs.map (fun o => (o.name, o.url)) = [("drives", "/drives")] := by
  decide

/-- C7: the number of status pins matches the selected status mode, 3 pins with
`enableRgbStatus` and 5 without; the configuration has `enableRgbStatus` false
and 5 pins. -/
theorem statusPins_count_matches_mode :
    statusPins.length = (if enableRgbStatus = true then 3 else 5) ∧
    statusPins.length = statusPinCount enableRgbStatus ∧
    enableRgbStatus = false ∧ statusPins.length = 5 := by
  decide

end DasController
